import Mathlib

/-!
Shallow embedding of the Elysia request-lifecycle engine
(`src/index.ts` = `unnamed/part_002`, `src/utils.ts` = `unnamed/part_001`,
types from `src/types.ts`) and proofs about the claims of the
natural-language specification.

Conventions of the embedding:
* JavaScript runtime values are modelled by `Value` (with distinct
  `undefined` and `null`, JS truthiness, objects as key/value lists).
* TypeBox schemas are modelled by the flat universe `TSchema`
  (string / number primitives and one-level objects of primitives),
  which covers every schema the specification's scenarios use; a
  compiled `TypeCheck` is modelled by the schema itself together with
  the executable `checkValue`.
* Mutation is modelled by explicit state passing: the `App` record is
  the `Elysia` instance, and every method returns the updated record.
  Object aliasing that matters (the shared store, the `decorators`
  record reused as the per-request context) is modelled by copying the
  corresponding component back into `App` where the source relies on
  reference sharing.
* The router (Raikiri) is an out-of-scope collaborator per the spec;
  it is modelled by exact match with a trailing `*` catch-all.
* The interpreter `handle` additionally returns a `Trace` of events
  (which hook / handler ran, in order); the trace is instrumentation
  only and does not influence control flow.
-/

set_option maxHeartbeats 1000000

namespace Elysia

/-- JavaScript-like runtime values. -/
inductive Value where
  | vUndefined : Value
  | vNull : Value
  | vStr : String → Value
  | vNum : Int → Value
  | vBool : Bool → Value
  | vObj : List (String × Value) → Value
  | vArr : List Value → Value
deriving Repr

/-- JS `x === null || x === undefined`. -/
def Value.isNullish : Value → Bool
  | .vUndefined => true
  | .vNull => true
  | _ => false

/-- JS truthiness. -/
def Value.truthy : Value → Bool
  | .vUndefined => false
  | .vNull => false
  | .vStr s => s ≠ ""
  | .vNum n => n ≠ 0
  | .vBool b => b
  | .vObj _ => true
  | .vArr _ => true

/-- Primitive field types of the modelled TypeBox universe. -/
inductive FieldType where
  | fString : FieldType
  | fNumber : FieldType
deriving Repr, DecidableEq

/-- Modelled TypeBox schemas: a primitive, or a one-level object of
primitives with an optional `additionalProperties` flag (`none` means
the key is absent from the schema object). -/
inductive TSchema where
  | prim : FieldType → TSchema
  | obj : List (String × FieldType) → Option Bool → TSchema
deriving Repr, DecidableEq

def checkField : FieldType → Value → Bool
  | .fString, .vStr _ => true
  | .fString, _ => false
  | .fNumber, .vNum _ => true
  | .fNumber, _ => false

/-- Modelled `TypeCheck.Check`: structural validation of a `Value`
against a schema.  Objects require every declared property (TypeBox
`t.Object` properties are required by default) and, when
`additionalProperties` is `false`, reject unknown keys. -/
def checkValue : TSchema → Value → Bool
  | .prim t, v => checkField t v
  | .obj fields ap, .vObj l =>
      fields.all (fun kf =>
        match l.lookup kf.1 with
        | some v => checkField kf.2 v
        | none => false)
      && (match ap with
          | some false => l.all (fun p => fields.any (fun kf => kf.1 == p.1))
          | _ => true)
  | .obj _ _, _ => false

def fieldTypeName : FieldType → String
  | .fString => "string"
  | .fNumber => "number"

/-- Modelled `validator.Errors(value).First()`: the (path, message) of
the first violation, matching TypeBox's `/prop` path shape.  The
external TypeBox error iterator is modelled by this simplified
first-error computation. -/
def firstErrorOf : TSchema → Value → String × String
  | .prim t, _ =>
      let n := fieldTypeName t
      ("", s!"Expected {n}")
  | .obj fields ap, .vObj l =>
      match fields.find? (fun kf =>
        match l.lookup kf.1 with
        | some v => !(checkField kf.2 v)
        | none => true) with
      | some kf =>
          let n := fieldTypeName kf.2
          ("/" ++ kf.1, s!"Expected {n}")
      | none =>
          match (if ap == some false
                 then l.find? (fun p => !(fields.any (fun kf => kf.1 == p.1)))
                 else none) with
          | some p => ("/" ++ p.1, "Unexpected property")
          | none => ("", "Expected object")
  | .obj _ _, _ => ("", "Expected object")

/-- Errors thrown inside the pipeline (`Error` instances): a message and
an optional string `cause`. -/
structure Err where
  message : String
  cause : Option String
deriving Repr, DecidableEq

/-- Modelled from the spec: the `ValidationError` class of the missing
`src/validation.ts` surfaces the `VALIDATION` error code through the
error's message (spec §7 taxonomy); the `cause` string is built exactly
as in `createValidationError` of `src/utils.ts` (quote characters around
the path are omitted). -/
def createValidationError (t : String) (s : TSchema) (v : Value) : Err :=
  let pe := firstErrorOf s v
  let p := if pe.1 = "" then "root" else pe.1.drop 1
  let m := pe.2
  { message := "VALIDATION", cause := some s!"Invalid {t}: {p}. {m}" }

/-- Modelled from the spec: `mapErrorCode` of the missing
`src/error.ts` — a message matching a known code string maps to itself,
anything else to `UNKNOWN` (spec §6 error taxonomy). -/
def mapErrorCode (m : String) : String :=
  if m = "NOT_FOUND" ∨ m = "INTERNAL_SERVER_ERROR" ∨ m = "VALIDATION" ∨ m = "UNKNOWN"
  then m else "UNKNOWN"

/-- Modelled from the spec: `mapErrorStatus` of the missing
`src/error.ts` — `VALIDATION→400, NOT_FOUND→404,
INTERNAL_SERVER_ERROR/UNKNOWN→500`, anything unrecognized `→500`
(spec §7). -/
def mapErrorStatus (c : String) : Nat :=
  if c = "VALIDATION" then 400
  else if c = "NOT_FOUND" then 404
  else if c = "INTERNAL_SERVER_ERROR" then 500
  else 500

/-- A schema position in a `TypedSchema`: an inline schema or a model
name (`TSchema | ModelName` in `src/types.ts`). -/
inductive SchemaRef where
  | inl : TSchema → SchemaRef
  | ref : String → SchemaRef
deriving Repr, DecidableEq

/-- The `response` position: a bare schema, a model name, or a mapping
from status code to schema-or-name. -/
inductive ResponseRef where
  | inl : TSchema → ResponseRef
  | ref : String → ResponseRef
  | rec' : List (Nat × SchemaRef) → ResponseRef
deriving Repr, DecidableEq

/-- The dynamic schema-descriptor record.  JS records carry whatever
keys were written on them: user code writes the key `headers`, while
`mergeHook` writes its merged header schema under the key `header`
(and `_addHandler` reads `headers` again).  Both keys are therefore
modelled as separate fields; an absent key is `none`. -/
structure TypedSchema where
  body : Option SchemaRef
  headers : Option SchemaRef
  header : Option SchemaRef
  params : Option SchemaRef
  query : Option SchemaRef
  response : Option ResponseRef
deriving Repr, DecidableEq

/-- A `TypedSchema` with no keys. -/
def tsNone : TypedSchema :=
  { body := none, headers := none, header := none, params := none
    query := none, response := none }

/-- Model registry `meta[DEFS]`: name → schema, insertion ordered. -/
abbrev Defs := List (String × TSchema)

/-- Source `getSchemaValidator` (`src/utils.ts`): resolve a name
against the registry (unknown names compile to no validator), then
inject the caller's `additionalProperties` default when the object
schema leaves it unset.  A compiled `TypeCheck` is modelled by the
schema itself. -/
def getSchemaValidator (s : Option SchemaRef) (models : Defs)
    (additionalProperties : Bool) : Option TSchema :=
  match s with
  | none => none
  | some (.ref name) =>
      match models.lookup name with
      | none => none
      | some sch =>
          match sch with
          | .obj fields none => some (.obj fields (some additionalProperties))
          | other => some other
  | some (.inl sch) =>
      match sch with
      | .obj fields none => some (.obj fields (some additionalProperties))
      | other => some other

/-- Source `getResponseSchemaValidator` (`src/utils.ts`): a bare schema
(or resolvable name) compiles to `{200: validator}`; a record compiles
each entry, resolving names against the registry (entries with unknown
names are dropped) and injecting `additionalProperties := false` only
for inline object schemas (the name branch of the source evaluates the
condition without assigning). -/
def getResponseSchemaValidator (s : Option ResponseRef) (models : Defs) :
    Option (List (Nat × TSchema)) :=
  match s with
  | none => none
  | some (.ref name) =>
      match models.lookup name with
      | none => none
      | some sch => some [(200, sch)]
  | some (.inl sch) => some [(200, sch)]
  | some (.rec' entries) =>
      some (entries.filterMap (fun sr =>
        match sr.2 with
        | .ref n => (models.lookup n).map (fun sch => (sr.1, sch))
        | .inl sch =>
            match sch with
            | .obj fields none => some (sr.1, .obj fields (some false))
            | other => some (sr.1, other)))

/-- The validator record `_addHandler` builds.  The source object
literal is `{ body, header, params, query, response }`: the header
validator is stored under the key `header`. -/
structure SchemaValidator where
  body : Option TSchema
  header : Option TSchema
  params : Option TSchema
  query : Option TSchema
  response : Option (List (Nat × TSchema))

/-- The executor (`Elysia.handle`) reads `validator.headers` (plural);
the validator record was built with the key `header` only, so this
property read yields `undefined`, modelled as `none`. -/
def SchemaValidator.headersRead (_v : SchemaValidator) : Option TSchema :=
  none

/-- An incoming request.  The URL fracture (pathname, parsed query) of
`mapPathnameAndQueryRegEx` is modelled as already split; header names
are lowercase as normalized by the HTTP layer.  `jsonBody` is the value
`request.json()` resolves to, `textBody` the value of
`request.text()`, `formData` the `FormData` entry list. -/
structure Request where
  method : String
  path : String
  query : List (String × String)
  headers : List (String × String)
  jsonBody : Value
  textBody : String
  formData : List (String × String)

/-- The mutable `set` record of the context (staged status/headers). -/
structure SetRec where
  status : Nat
  headers : List (String × String)
deriving Repr, DecidableEq

/-- The per-request `Context` record.  The source reuses the scope's
`decorators` object as the context of every request (`handle` line
`const context: Context = this.decorators`): the record persists on the
`App` between requests.  `extra` models decorated keys.  Fields that
are `undefined` before they are first assigned are modelled by their
empty defaults. -/
structure Context where
  request : Request
  set : SetRec
  params : List (String × String)
  query : List (String × String)
  body : Value
  store : List (String × Value)
  extra : List (String × Value)

/-- A mapped HTTP response. -/
structure Response where
  status : Nat
  headers : List (String × String)
  body : Value
deriving Repr

/-- Modelled from the spec: `mapResponse` of the missing
`src/handler.ts` wraps a value with the staged status and headers
(spec §6 response mapping). -/
def mapResponse (v : Value) (set : SetRec) : Response :=
  { status := set.status, headers := set.headers, body := v }

/-- Modelled from the spec: `mapEarlyResponse` of the missing
`src/handler.ts` — `undefined`/`null` means "no short-circuit,
continue"; any other value is wrapped with the staged status and
headers (spec §6). -/
def mapEarlyResponse (v : Value) (set : SetRec) : Option Response :=
  if v.isNullish then none else some (mapResponse v set)

/-- `request`/`beforeHandle` hooks: receive the context (which they may
mutate) and return a value. -/
abbrev HookFn := Context → Context × Value

/-- `transform` hooks: mutate the context, return value ignored. -/
abbrev TransformFn := Context → Context

/-- `afterHandle` hooks: receive the context and the running value. -/
abbrev AfterFn := Context → Value → Context × Value

/-- `parse` hooks: receive the context and the content type. -/
abbrev ParseFn := Context → String → Context × Value

/-- `error` hooks: receive `{request, error, set, code}`; they may
mutate `set` and return a value. -/
abbrev ErrorFn := Request → Err → SetRec → String → SetRec × Value

/-- Route handlers: receive the context, return the result value. -/
abbrev HandlerFn := Context → Context × Value

/-- A hook set as passed around by `mergeHook`: the runtime shape of
both `LocalHook` values and merged `RegisteredHook` values (the source
types differ but the records coincide at runtime). -/
structure LocalHook where
  schema : Option TypedSchema
  parse : List ParseFn
  transform : List TransformFn
  beforeHandle : List HookFn
  afterHandle : List AfterFn
  error : List ErrorFn

/-- A `LocalHook` with nothing declared (also stands for an absent
hook argument: every read of the absent record defaults the same
way). -/
def lhNone : LocalHook :=
  { schema := none, parse := [], transform := [], beforeHandle := []
    afterHandle := [], error := [] }

/-- Source `mergeObjectArray` (`src/utils.ts`): both arguments are
arrays in every call site of the engine, so the scalar-wrapping
degenerates to list append. -/
def mergeObjectArray (a b : List α) : List α := a ++ b

/-- Source `mergeHook` (`src/utils.ts`).  The merged schema is built
with the key `header` from the inputs' `headers` keys (inner wins, else
outer); all hook arrays are appended outer-first.  The OpenAPI `detail`
substructure is documentation-only and not modelled. -/
def mergeHook (a b : LocalHook) : LocalHook :=
  let aS := a.schema
  let bS := b.schema
  { schema :=
      if aS.isSome || bS.isSome then
        some { body := (bS.bind (fun s => s.body)) <|> (aS.bind (fun s => s.body))
               headers := none
               header := (bS.bind (fun s => s.headers)) <|> (aS.bind (fun s => s.headers))
               params := (bS.bind (fun s => s.params)) <|> (aS.bind (fun s => s.params))
               query := (bS.bind (fun s => s.query)) <|> (aS.bind (fun s => s.query))
               response := (bS.bind (fun s => s.response)) <|> (aS.bind (fun s => s.response)) }
      else none
    transform := mergeObjectArray a.transform b.transform
    beforeHandle := mergeObjectArray a.beforeHandle b.beforeHandle
    parse := mergeObjectArray a.parse b.parse
    afterHandle := mergeObjectArray a.afterHandle b.afterHandle
    error := mergeObjectArray a.error b.error }

/-- Source `clone` (`src/utils.ts`): `[value][0]`, the identity. -/
def clone (v : α) : α := v

/-- `s.startsWith pre` (over the character lists; the library version
does not reduce definitionally). -/
def strStartsWith (s pre : String) : Bool := pre.data.isPrefixOf s.data

/-- `s.endsWith suf` over the character lists. -/
def strEndsWith (s suf : String) : Bool := suf.data.isSuffixOf s.data

/-- The lifecycle event arrays of a scope (`LifeCycleStore`).  The
`start`/`stop` arrays belong to the out-of-scope process lifecycle
(spec §1) and are not modelled. -/
structure LifeCycleStore where
  request : List HookFn
  parse : List ParseFn
  transform : List TransformFn
  beforeHandle : List HookFn
  afterHandle : List AfterFn
  error : List ErrorFn

def emptyEvents : LifeCycleStore :=
  { request := [], parse := [], transform := [], beforeHandle := []
    afterHandle := [], error := [] }

/-- Reading the five `mergeHook`-relevant arrays (and no `schema` key)
off a `LifeCycleStore`, as `mergeHook({...this.event}, hook)` does. -/
def eventHook (e : LifeCycleStore) : LocalHook :=
  { schema := none, parse := e.parse, transform := e.transform
    beforeHandle := e.beforeHandle, afterHandle := e.afterHandle
    error := e.error }

/-- One entry of `this.routes` (`InternalRoute`). -/
structure InternalRoute where
  method : String
  path : String
  handler : HandlerFn
  hooks : LocalHook

/-- The record `_addHandler` stores in the router
(`{handle, hooks, validator}`). -/
structure RouteEntry where
  handle : HandlerFn
  hooks : Option LocalHook
  validator : Option SchemaValidator

/-- One registration of the router collaborator. -/
structure RouteRec where
  method : String
  path : String
  entry : RouteEntry

/-- The router is an out-of-scope collaborator (spec §1, §6): it is
modelled by exact match on `(method, path)` with a trailing-`*`
catch-all fallback, params carrying the catch-all remainder. -/
def matchRouter (rs : List RouteRec) (m p : String) :
    Option (RouteEntry × List (String × String)) :=
  match rs.find? (fun r => r.method == m && r.path == p) with
  | some r => some (r.entry, [])
  | none =>
      match rs.find? (fun r =>
        r.method == m && strEndsWith r.path "*"
          && (r.path.dropRight 1).data.isPrefixOf p.data) with
      | some r => some (r.entry, [("*", p.drop (r.path.length - 1))])
      | none => none

/-- The `Elysia` instance: shared store, model registry `meta[DEFS]`,
lifecycle arrays, router, `this.routes`, and the `decorators` record
(which `handle` reuses as the per-request context, so it persists
here).  The OpenAPI `meta[SCHEMA]` mirror (`registerSchemaPath`), the
`$schema` set by the `.schema()` method, websockets, `use`, `fn` and
`listen`/`stop` are outside the claims and not modelled; the `$schema`
fallbacks of `_addHandler` are therefore always absent. -/
structure App where
  store : List (String × Value)
  defs : Defs
  event : LifeCycleStore
  router : List RouteRec
  routes : List InternalRoute
  ctxObj : Context

def emptyRequest : Request :=
  { method := "GET", path := "/", query := [], headers := []
    jsonBody := .vUndefined, textBody := "", formData := [] }

/-- The fresh `decorators` record of a new instance: the fields the
executor assigns per request start out absent (modelled by their empty
defaults). -/
def emptyContext : Context :=
  { request := emptyRequest, set := { status := 0, headers := [] }
    params := [], query := [], body := .vUndefined, store := [], extra := [] }

/-- `new Elysia()`. -/
def App.empty : App :=
  { store := [], defs := [], event := emptyEvents, router := [], routes := []
    ctxObj := emptyContext }

namespace App

/-- Source `Elysia._addHandler`: normalize the path, push the
`routes` entry with hooks merged from the current event store, compile
the validators from the raw hook's schema keys (note: the `headers`
key; the header validator is placed under the `header` key of the
validator record), drop the hooks record when it carries no schema and
no transform/beforeHandle/error/afterHandle hook (the `parse` length is
not consulted), and register the route. -/
def _addHandler (app : App) (method path0 : String) (handler : HandlerFn)
    (hook : Option LocalHook) : App :=
  let path := if strStartsWith path0 "/" then path0 else "/" ++ path0
  let hk := hook.getD lhNone
  let routes' := app.routes ++
    [{ method := method, path := path, handler := handler
       hooks := mergeHook (eventHook app.event) hk }]
  let defs := app.defs
  let bodyV := getSchemaValidator (hk.schema.bind (fun s => s.body)) defs false
  let headerV := getSchemaValidator (hk.schema.bind (fun s => s.headers)) defs true
  let paramsV := getSchemaValidator (hk.schema.bind (fun s => s.params)) defs false
  let queryV := getSchemaValidator (hk.schema.bind (fun s => s.query)) defs false
  let responseV := getResponseSchemaValidator (hk.schema.bind (fun s => s.response)) defs
  let validator : Option SchemaValidator :=
    if bodyV.isSome || headerV.isSome || paramsV.isSome || queryV.isSome
        || responseV.isSome then
      some { body := bodyV, header := headerV, params := paramsV
             query := queryV, response := responseV }
    else none
  let hooks0 := mergeHook (clone (eventHook app.event)) hk
  let hooks : Option LocalHook :=
    if hooks0.schema.isNone && hooks0.transform.isEmpty
        && hooks0.beforeHandle.isEmpty && hooks0.error.isEmpty
        && hooks0.afterHandle.isEmpty then
      none
    else some hooks0
  { app with
    routes := routes'
    router := app.router ++
      [{ method := method, path := path
         entry := { handle := handler, hooks := hooks, validator := validator } }] }

def get (app : App) (path : String) (handler : HandlerFn)
    (hook : Option LocalHook) : App :=
  app._addHandler "GET" path handler hook

def post (app : App) (path : String) (handler : HandlerFn)
    (hook : Option LocalHook) : App :=
  app._addHandler "POST" path handler hook

def route (app : App) (method path : String) (handler : HandlerFn)
    (hook : Option LocalHook) : App :=
  app._addHandler method path handler hook

def onRequest (app : App) (h : HookFn) : App :=
  { app with event := { app.event with request := app.event.request ++ [h] } }

/-- Source `Elysia.onParse`:
`this.event.parse.splice(this.event.parse.length - 1, 0, parser)` —
JS `splice` clamps the start index `-1` of an empty array to `0`, and
otherwise inserts the parser immediately before the last element. -/
def onParse (app : App) (p : ParseFn) : App :=
  let l := app.event.parse
  let l' := if l.isEmpty then [p] else l.dropLast ++ [p] ++ l.drop (l.length - 1)
  { app with event := { app.event with parse := l' } }

/-- The `case 'parse'` branch of `Elysia.on` — a plain
`this.event.parse.push(handler)` (its doc comment says `on` does the
exact same thing as the named registration methods). -/
def onEventParse (app : App) (p : ParseFn) : App :=
  { app with event := { app.event with parse := app.event.parse ++ [p] } }

def onTransform (app : App) (t : TransformFn) : App :=
  { app with event := { app.event with transform := app.event.transform ++ [t] } }

def onBeforeHandle (app : App) (h : HookFn) : App :=
  { app with event := { app.event with beforeHandle := app.event.beforeHandle ++ [h] } }

def onAfterHandle (app : App) (h : AfterFn) : App :=
  { app with event := { app.event with afterHandle := app.event.afterHandle ++ [h] } }

def onError (app : App) (h : ErrorFn) : App :=
  { app with event := { app.event with error := app.event.error ++ [h] } }

/-- Source `Elysia.state`: insert only when the key is absent (first
call wins). -/
def state (app : App) (name : String) (value : Value) : App :=
  if app.store.any (fun p => p.1 == name) then app
  else { app with store := app.store ++ [(name, value)] }

/-- Source `Elysia.decorate`: insert only when the key is absent. -/
def decorate (app : App) (name : String) (value : Value) : App :=
  if app.ctxObj.extra.any (fun p => p.1 == name) then app
  else { app with ctxObj := { app.ctxObj with extra := app.ctxObj.extra ++ [(name, value)] } }

/-- The registry fold of `Elysia.setModel`: each entry is written only
when its name is absent (first writer wins). -/
def setModelDefs (defs : Defs) (record : List (String × TSchema)) : Defs :=
  record.foldl (fun d kv =>
    if (List.lookup kv.1 d).isSome then d else d ++ [kv]) defs

def setModel (app : App) (record : List (String × TSchema)) : App :=
  { app with defs := setModelDefs app.defs record }

/-- The re-registration of one collected route by `group`: the path is
prefixed (`/` becomes exactly the prefix) and only the child's
top-level `error` hooks are merged in. -/
def groupStep (pfx : String) (errs : List ErrorFn) (acc : App)
    (r : InternalRoute) : App :=
  let path := if r.path = "/" then pfx else pfx ++ r.path
  acc._addHandler r.method path r.handler
    (some (mergeHook r.hooks { lhNone with error := errs }))

/-- Source `Elysia.group`: build a child scope sharing the store, run
the builder (the chainable methods return the instance, so the
builder's result is the mutated child), fold the child's `request`
hooks and model registry into the parent, and re-register every child
route.  Store mutations made through the shared reference during the
builder run are visible to the parent. -/
def group (app : App) (pfx : String) (run : App → App) : App :=
  let child := { App.empty with store := app.store }
  let sandbox := run child
  let app1 :=
    if sandbox.event.request.isEmpty then app
    else { app with event := { app.event with
             request := app.event.request ++ sandbox.event.request } }
  let app2 := { app1 with store := sandbox.store }
  let app3 := app2.setModel sandbox.defs
  sandbox.routes.foldl (groupStep pfx sandbox.event.error) app3

/-- The re-registration of one collected route by `guard`: the guard's
own hook/schema declaration is merged as the outer layer against the
route's hooks. -/
def guardStep (hook : LocalHook) (acc : App) (r : InternalRoute) : App :=
  acc._addHandler r.method r.path r.handler
    (some (mergeHook hook r.hooks))

/-- Source `Elysia.guard`: like `group` but paths are unchanged. -/
def guard (app : App) (hook : LocalHook) (run : App → App) : App :=
  let child := { App.empty with store := app.store }
  let sandbox := run child
  let app1 :=
    if sandbox.event.request.isEmpty then app
    else { app with event := { app.event with
             request := app.event.request ++ sandbox.event.request } }
  let app2 := { app1 with store := sandbox.store }
  let app3 := app2.setModel sandbox.defs
  sandbox.routes.foldl (guardStep hook) app3

end App

/-- Trace events: instrumentation recording which hook / handler the
executor invoked, in order. -/
inductive Ev where
  | reqHook : Nat → Ev
  | parseHook : Nat → Ev
  | transform : Nat → Ev
  | beforeHook : Nat → Ev
  | afterHook : Nat → Ev
  | handlerRun : Ev
  | errHook : Nat → Ev
  | gErrHook : Nat → Ev
deriving Repr, DecidableEq

abbrev Trace := List Ev

/-- The possible endings of the `try` block of `handle`. -/
inductive Outcome where
  | ok : Response → Outcome
  | err : Err → Outcome

/-- The context initialization of `handle`
(`context.request = request; context.set = {status: 200, headers: {}}`),
applied to the persistent `decorators` record; `context.store` aliases
the instance store. -/
def initCtx (c : Context) (store : List (String × Value)) (req : Request) :
    Context :=
  { c with request := req, set := { status := 200, headers := [] }, store := store }

/-- Build the JS object for `context.params` (unique keys from the
router). -/
def paramsObj (ps : List (String × String)) : Value :=
  .vObj (ps.map (fun p => (p.1, Value.vStr p.2)))

def dedupKeys (ps : List (String × String)) : List String :=
  ps.foldl (fun acc p => if acc.contains p.1 then acc else acc ++ [p.1]) []

/-- Build a JS object from a key/value list where repeated keys become
arrays (the behavior of `fast-querystring` parsing and of the
`multipart/form-data` loop of `handle`). -/
def multiObj (ps : List (String × String)) : Value :=
  .vObj ((dedupKeys ps).map (fun k =>
    match ps.filterMap (fun p => if p.1 == k then some p.2 else none) with
    | [v] => (k, Value.vStr v)
    | vs => (k, Value.vArr (vs.map Value.vStr))))

/-- Minimal model of `fast-querystring`'s `parse` for url-encoded
bodies: split on `&` and on the first `=` (percent-decoding is not
modelled). -/
def splitChar (sep : Char) : List Char → List (List Char)
  | [] => [[]]
  | c :: cs =>
      match splitChar sep cs with
      | [] => [[]]
      | g :: gs => if c == sep then [] :: g :: gs else (c :: g) :: gs

def parseQS (s : String) : List (String × String) :=
  if s = "" then []
  else (splitChar '&' s.data).map (fun kv =>
    let k := kv.takeWhile (fun c => c != '=')
    let rest := kv.dropWhile (fun c => c != '=')
    (String.mk k, String.mk (rest.drop 1)))

/-- Strip the parameters from a content-type header value
(`contentType.slice(0, indexOf(";"))`). -/
def stripCT (ct : String) : String :=
  String.mk (ct.data.takeWhile (fun c => c != ';'))

/-- The default body decoding switch of `handle` (spec §6).  The
`elysia/fn` branch deserializes `request.json()` (the external
superjson decoding is modelled by the value the request carries). -/
def decodeBody (ct : String) (req : Request) : Value :=
  if ct = "application/json" then req.jsonBody
  else if ct = "text/plain" then .vStr req.textBody
  else if ct = "application/x-www-form-urlencoded" then multiObj (parseQS req.textBody)
  else if ct = "multipart/form-data" then multiObj req.formData
  else if ct = "elysia/fn" then req.jsonBody
  else .vUndefined

/-- The global `request`-hook loop of `handle`: first result that maps
to an early response terminates the request before routing. -/
def runRequestHooks : List HookFn → Context → Nat → Trace →
    Context × Trace × Option Response
  | [], ctx, _, tr => (ctx, tr, none)
  | h :: hs, ctx, i, tr =>
      let r := h ctx
      let tr1 := tr ++ [.reqHook i]
      match mapEarlyResponse r.2 r.1.set with
      | some resp => (r.1, tr1, some resp)
      | none => runRequestHooks hs r.1 (i + 1) tr1

/-- The custom `parse`-hook loop of `handle` (over the scope's *live*
`event.parse` array): the first hook returning anything other than
`undefined` provides the body (`null` counts). -/
def runParseHooks : List ParseFn → Context → String → Nat → Trace →
    Context × Trace × Value
  | [], ctx, _, _, tr => (ctx, tr, .vUndefined)
  | p :: ps, ctx, ct, i, tr =>
      let r := p ctx ct
      let tr1 := tr ++ [.parseHook i]
      match r.2 with
      | .vUndefined => runParseHooks ps r.1 ct (i + 1) tr1
      | v => (r.1, tr1, v)

/-- The body acquisition of `handle`: skipped for `GET`; otherwise
gated on a non-empty `content-type` header; custom parse hooks first,
then the default decoding switch. -/
def acquireBody (parseHooks : List ParseFn) (ctx : Context) (req : Request)
    (tr : Trace) : Context × Trace × Value :=
  if req.method = "GET" then (ctx, tr, .vUndefined)
  else
    match req.headers.lookup "content-type" with
    | none => (ctx, tr, .vUndefined)
    | some ct0 =>
        if ct0 = "" then (ctx, tr, .vUndefined)
        else
          let ct := stripCT ct0
          match runParseHooks parseHooks ctx ct 0 tr with
          | (ctx1, tr1, .vUndefined) => (ctx1, tr1, decodeBody ct req)
          | (ctx1, tr1, v) => (ctx1, tr1, v)

/-- The `transform`-hook loop: hooks mutate the context in place. -/
def runTransforms : List TransformFn → Context → Nat → Trace → Context × Trace
  | [], ctx, _, tr => (ctx, tr)
  | t :: ts, ctx, i, tr => runTransforms ts (t ctx) (i + 1) (tr ++ [.transform i])

/-- The header extraction of `handle`
(`for (const key in request.headers) ...`): `for...in` over a `Headers`
instance visits no enumerable own properties (the entries live behind
non-enumerable prototype accessors), so the extracted record is always
empty. -/
def extractHeadersForIn (_req : Request) : List (String × Value) := []

/-- The validation block of `handle`: headers (via the absent
`validator.headers` key), params, query, then the local `body` value,
first failure producing the `ValidationError`. -/
def runValidators (v : SchemaValidator) (req : Request)
    (ps qs : List (String × String)) (body : Value) : Option Err :=
  let hStep : Option Err :=
    match v.headersRead with
    | some s =>
        let hv := Value.vObj (extractHeadersForIn req)
        if checkValue s hv then none else some (createValidationError "header" s hv)
    | none => none
  match hStep with
  | some e => some e
  | none =>
    match v.params with
    | some s =>
        if checkValue s (paramsObj ps) then
          runValidatorsQ v req qs body
        else some (createValidationError "params" s (paramsObj ps))
    | none => runValidatorsQ v req qs body
where
  runValidatorsQ (v : SchemaValidator) (_req : Request)
      (qs : List (String × String)) (body : Value) : Option Err :=
    match v.query with
    | some s =>
        if checkValue s (multiObj qs) then runValidatorsB v body
        else some (createValidationError "query" s (multiObj qs))
    | none => runValidatorsB v body
  runValidatorsB (v : SchemaValidator) (body : Value) : Option Err :=
    match v.body with
    | some s =>
        if checkValue s body then none
        else some (createValidationError "body" s body)
    | none => none

/-- The inner `afterHandle` loop run over a short-circuiting
`beforeHandle` result: each hook's result replaces the running value
only when truthy (`if (newResponse) response = newResponse`). -/
def runAfterChain : List AfterFn → Context → Value → Nat → Trace →
    Context × Value × Trace
  | [], ctx, v, _, tr => (ctx, v, tr)
  | a :: as', ctx, v, i, tr =>
      let r := a ctx v
      let v' := if r.2.truthy then r.2 else v
      runAfterChain as' r.1 v' (i + 1) (tr ++ [.afterHook i])

/-- The `beforeHandle` loop of `handle`: the first hook whose result is
neither `null` nor `undefined` runs all `afterHandle` hooks over that
result and, when the final value maps to an early response, returns
it. -/
def runBeforeHandle : List HookFn → List AfterFn → Context → Nat → Trace →
    Context × Trace × Option Response
  | [], _, ctx, _, tr => (ctx, tr, none)
  | b :: bs, as', ctx, i, tr =>
      let r := b ctx
      let tr1 := tr ++ [.beforeHook i]
      if r.2.isNullish then runBeforeHandle bs as' r.1 (i + 1) tr1
      else
        match runAfterChain as' r.1 r.2 0 tr1 with
        | (c2, v2, tr2) =>
            match mapEarlyResponse v2 c2.set with
            | some resp => (c2, tr2, some resp)
            | none => runBeforeHandle bs as' c2 (i + 1) tr2

/-- The main `afterHandle` loop of `handle`, run over the handler's
result: each hook receives the *original* handler result, and the first
hook result that maps to an early response is returned. -/
def runAfterMain : List AfterFn → Context → Value → Nat → Trace →
    Context × Trace × Option Response
  | [], ctx, _, _, tr => (ctx, tr, none)
  | a :: as', ctx, v, i, tr =>
      let r := a ctx v
      let tr1 := tr ++ [.afterHook i]
      match mapEarlyResponse r.2 r.1.set with
      | some resp => (r.1, tr1, some resp)
      | none => runAfterMain as' r.1 v (i + 1) tr1

/-- The `TypeError` raised by
`validator?.response?.Check(response)`: the response validator is the
status→validator record built by `getResponseSchemaValidator`, a plain
object with no `Check` method, so calling the `undefined` property
throws.  (Any `TypeError` message maps to the `UNKNOWN` code.) -/
def responseCheckTypeError : Err :=
  { message := "validator.response.Check is not a function", cause := none }

/-- The per-route part of the `try` block of `handle`: transforms,
validation, `beforeHandle` (with possible short-circuit), the user
handler, the response-validator access, and the main `afterHandle`
loop, threading the `handleErrors` variable. -/
def runCore (hooks : Option LocalHook) (validator : Option SchemaValidator)
    (handler : HandlerFn) (req : Request) (ctx : Context) (body : Value)
    (tr : Trace) (he : Option (List ErrorFn)) :
    Context × Trace × Outcome × Option (List ErrorFn) :=
  let tStage :=
    match hooks with
    | some h => runTransforms h.transform ctx 0 tr
    | none => (ctx, tr)
  let ctx1 := tStage.1
  let tr1 := tStage.2
  match validator with
  | some v =>
      let he1 := if hooks.isSome then (hooks.map (fun h => h.error)) else he
      match runValidators v req ctx1.params ctx1.query body with
      | some e => (ctx1, tr1, .err e, he1)
      | none => runCoreB hooks validator handler ctx1 tr1 he1
  | none => runCoreB hooks validator handler ctx1 tr1 he
where
  runCoreB (hooks : Option LocalHook) (validator : Option SchemaValidator)
      (handler : HandlerFn) (ctx1 : Context) (tr1 : Trace)
      (he1 : Option (List ErrorFn)) :
      Context × Trace × Outcome × Option (List ErrorFn) :=
    let bStage :=
      match hooks with
      | some h => runBeforeHandle h.beforeHandle h.afterHandle ctx1 0 tr1
      | none => (ctx1, tr1, none)
    match bStage with
    | (c2, tr2, some resp) => (c2, tr2, .ok resp, he1)
    | (c2, tr2, none) =>
        let hr := handler c2
        let c3 := hr.1
        let tr3 := tr2 ++ [.handlerRun]
        match validator with
        | some v =>
            if v.response.isSome then
              (c3, tr3, .err responseCheckTypeError, he1)
            else runCoreC hooks c3 hr.2 tr3 he1
        | none => runCoreC hooks c3 hr.2 tr3 he1
  runCoreC (hooks : Option LocalHook) (c3 : Context) (rv : Value)
      (tr3 : Trace) (he1 : Option (List ErrorFn)) :
      Context × Trace × Outcome × Option (List ErrorFn) :=
    match hooks with
    | some h =>
        match runAfterMain h.afterHandle c3 rv 0 tr3 with
        | (c4, tr4, some resp) => (c4, tr4, .ok resp, he1)
        | (c4, tr4, none) => (c4, tr4, .ok (mapResponse rv c4.set), he1)
    | none => (c3, tr3, .ok (mapResponse rv c3.set), he1)

/-- The `try` block of `handle`: global request hooks, router lookup
(`match(method) ?? match('ALL')`, raising `NOT_FOUND`), body
acquisition over the scope's live parse hooks, the context assignments
`body`/`params`/`query`, then `runCore`. -/
def runPipeline (router : List RouteRec) (reqHooks : List HookFn)
    (parseHooks : List ParseFn) (ctx0 : Context) (req : Request) :
    Context × Trace × Outcome × Option (List ErrorFn) :=
  match runRequestHooks reqHooks ctx0 0 [] with
  | (ctxR, trR, some resp) => (ctxR, trR, .ok resp, none)
  | (ctxR, trR, none) =>
      match matchRouter router req.method req.path <|> matchRouter router "ALL" req.path with
      | none => (ctxR, trR, .err { message := "NOT_FOUND", cause := none }, none)
      | some (entry, rparams) =>
          let he := if entry.hooks.isSome then entry.hooks.map (fun h => h.error) else none
          match acquireBody parseHooks ctxR req trR with
          | (ctxP, trP, bodyV) =>
              let ctx1 := { ctxP with body := bodyV, params := rparams, query := req.query }
              runCore entry.hooks entry.validator entry.handle req ctx1 bodyV trP he

/-- The status bump at the top of the `catch` block
(`if (!set.status || set.status < 300) set.status = 500`). -/
def bump500 (set : SetRec) : SetRec :=
  if set.status < 300 then { set with status := 500 } else set

/-- The route-level error-hook loop of the `catch` block: the first
hook result that maps to an early response short-circuits. -/
def runErrorHooks : List ErrorFn → Request → Err → SetRec → String → Nat →
    Trace → SetRec × Trace × Option Response
  | [], _, _, set, _, _, tr => (set, tr, none)
  | h :: hs, req, e, set, code, i, tr =>
      let r := h req e set code
      let tr1 := tr ++ [.errHook i]
      match mapEarlyResponse r.2 r.1 with
      | some resp => (r.1, tr1, some resp)
      | none => runErrorHooks hs req e r.1 code (i + 1) tr1

/-- Source `Elysia.handleError`: global error hooks in order, first
non-nullish result mapped to a response; otherwise the default
response: the error's string `cause` (or its message) with the status
derived from the error code. -/
def handleErrorFn : List ErrorFn → Request → Err → SetRec → Nat → Trace →
    Response × SetRec × Trace
  | [], _, e, set, _, tr =>
      ({ status := mapErrorStatus (mapErrorCode e.message)
         headers := set.headers
         body := .vStr (e.cause.getD e.message) }, set, tr)
  | h :: hs, req, e, set, i, tr =>
      let r := h req e set (mapErrorCode e.message)
      let tr1 := tr ++ [.gErrHook i]
      if r.2.isNullish then handleErrorFn hs req e r.1 (i + 1) tr1
      else (mapResponse r.2 r.1, r.1, tr1)

/-- The `catch` block of `handle`: bump the staged status to 500, run
the route-level error hooks, then fall back to `handleError`. -/
def recoverFromError (he : Option (List ErrorFn)) (gErr : List ErrorFn)
    (req : Request) (e : Err) (ctx : Context) (tr : Trace) :
    Response × Context × Trace :=
  let set1 := bump500 ctx.set
  match runErrorHooks (he.getD []) req e set1 (mapErrorCode e.message) 0 tr with
  | (set2, tr2, some resp) => (resp, { ctx with set := set2 }, tr2)
  | (set2, tr2, none) =>
      match handleErrorFn gErr req e set2 0 tr2 with
      | (resp, set3, tr3) => (resp, { ctx with set := set3 }, tr3)

/-- `handle` as a function of the instance components it actually
reads: the router, the live `request`/`parse`/global-`error` arrays,
the store and the persistent context record. -/
def handleAux (router : List RouteRec) (reqHooks : List HookFn)
    (parseHooks : List ParseFn) (gErr : List ErrorFn)
    (store : List (String × Value)) (cobj : Context) (req : Request) :
    Response × Context × Trace :=
  let ctx0 := initCtx cobj store req
  match runPipeline router reqHooks parseHooks ctx0 req with
  | (ctx, tr, .ok resp, _) => (resp, ctx, tr)
  | (ctx, tr, .err e, he) => recoverFromError he gErr req e ctx tr

/-- Source `Elysia.handle`: run the pipeline on the persistent
decorators record and write the mutated context and store back to the
instance. -/
def handle (app : App) (req : Request) : Response × App × Trace :=
  match handleAux app.router app.event.request app.event.parse app.event.error
      app.store app.ctxObj req with
  | (resp, ctx, tr) => (resp, { app with ctxObj := ctx, store := ctx.store }, tr)

end Elysia

namespace Elysia

/-! ### Scenario definitions used by the claims -/

/-- `t.Object({name: t.String()})`. -/
def tNameS : TSchema := .obj [("name", .fString)] none

/-- `t.Object({a: t.String()})`. -/
def tAS : TSchema := .obj [("a", .fString)] none

/-- `t.Object({username: t.String()})`. -/
def tUserS : TSchema := .obj [("username", .fString)] none

/-- The `beforeHandle: ({ query }) => {}` hooks of the nested-guard
example: they return `undefined`. -/
def bhNoop : HookFn := fun c => (c, .vUndefined)

/-- `() => 'A'`. -/
def hA : HandlerFn := fun c => (c, .vStr "A")

/-- Request constructor for requests without a body payload. -/
def mkReq (m p : String) (q hs : List (String × String)) : Request :=
  { method := m, path := p, query := q, headers := hs
    jsonBody := .vUndefined, textBody := "", formData := [] }

/-- A GET request to `/a` with the given query and headers (the shape
quantified over in the nested-guard claim). -/
def mkGetA (q hs : List (String × String)) (jb : Value) (tb : String)
    (fd : List (String × String)) : Request :=
  { method := "GET", path := "/a", query := q, headers := hs
    jsonBody := jb, textBody := tb, formData := fd }

/-- The inner guarded scope of the nested-guard example
(`examples/stress.ts` = `unnamed/part_000`): `/a` with a local body
schema. -/
def innerBuilder : App → App := fun b =>
  b.get "/a" hA (some { lhNone with
    beforeHandle := [bhNoop]
    schema := some { tsNone with body := some (.inl tUserS) } })

/-- The middle scope of the nested-guard example: `/` with a local
query schema, then the nested guard declaring the header schema. -/
def middleBuilder : App → App := fun a =>
  (a.get "/" hA (some { lhNone with
      beforeHandle := [bhNoop]
      schema := some { tsNone with query := some (.inl tAS) } })).guard
    { lhNone with schema := some { tsNone with headers := some (.inl tAS) } }
    innerBuilder

/-- The nested-guard example application: the outer guard declares the
query schema `{name: string}`, plus the `*` route. -/
def c1App : App :=
  (App.empty.guard
    { lhNone with schema := some { tsNone with query := some (.inl tNameS) } }
    middleBuilder).get "*" (fun c => (c, .vStr "Star now work")) none

/-- The hook set stored for route `/a` of the nested-guard example:
the guard's header schema was dropped by the `header`/`headers` key
mismatch of `mergeHook`, the local body schema and the outer query
schema survive, and the local `beforeHandle` hook is kept. -/
def c1EntryHooks : LocalHook :=
  { schema := some
      { body := some (.inl (.obj [("username", .fString)] none))
        headers := none
        header := none
        params := none
        query := some (.inl (.obj [("name", .fString)] none))
        response := none }
    parse := [], transform := [], beforeHandle := [bhNoop]
    afterHandle := [], error := [] }

/-- The validator record compiled for route `/a` of the nested-guard
example: query and body validators only (no header validator
survives). -/
def c1EntryValidator : SchemaValidator :=
  { body := some (.obj [("username", .fString)] (some false))
    header := none
    params := none
    query := some (.obj [("name", .fString)] (some false))
    response := none }

/-- The context with which the per-route stages of a `GET /a` request
against the nested-guard example run. -/
def c1Ctx (q hs : List (String × String)) (jb : Value) (tb : String)
    (fd : List (String × String)) : Context :=
  { initCtx c1App.ctxObj c1App.store (mkGetA q hs jb tb fd) with
      body := .vUndefined
      params := ([] : List (String × String))
      query := q }

/-- A route declaring only a headers schema (claim about validator
order). -/
def headersOnlyApp : App := App.empty.get "/" (fun c => (c, .vStr "hi"))
  (some { lhNone with schema := some { tsNone with headers := some (.inl tAS) } })

/-- A route declaring a response schema whose handler returns a number
(violating the declared string schema). -/
def respSchemaApp : App := App.empty.get "/" (fun c => (c, .vNum 1))
  (some { lhNone with schema := some { tsNone with response := some (.inl (.prim .fString)) } })

/-- The header validator compiled for a registered route, as stored in
the route entry. -/
def routeHeaderValidator (app : App) (m p : String) : Option TSchema :=
  match matchRouter app.router m p with
  | some (e, _) => e.validator.bind (fun v => v.header)
  | none => none

/-- The response validator record compiled for a registered route. -/
def routeResponseValidator (app : App) (m p : String) :
    Option (List (Nat × TSchema)) :=
  match matchRouter app.router m p with
  | some (e, _) => e.validator.bind (fun v => v.response)
  | none => none

/-- The `onRequest(({ store }) => { store.counter++ })` hook of the
group-delegation test (`test/group.ts` = `unnamed/part_003`). -/
def incrHook : HookFn := fun c =>
  ({ c with store := c.store.map (fun p =>
      if p.1 = "counter" then
        (p.1, match p.2 with | .vNum n => .vNum (n + 1) | v => v)
      else p) }, .vUndefined)

/-- `({ store: { counter } }) => counter`. -/
def counterHandler : HandlerFn := fun c =>
  (c, (c.store.lookup "counter").getD .vUndefined)

/-- The group-delegation test application:
`.get('/', ...)` then `.group('/counter', app => app.state(...).onRequest(...).get('', ...))`. -/
def c10App : App :=
  (App.empty.get "/" hA none).group "/counter"
    (fun a => ((a.state "counter" (.vNum 0)).onRequest incrHook).get "" counterHandler none)

/-- A POST route whose handler echoes the parsed body. -/
def echoBodyApp : App := App.empty.post "/" (fun c => (c, c.body)) none

/-- A custom parser registered after the route. -/
def fromParserFn : ParseFn := fun c _ => (c, .vStr "fromParser")

def echoBodyAppWithParser : App := echoBodyApp.onParse fromParserFn

/-- A JSON POST to `/` whose decoded body is the string `raw`. -/
def reqPostJson : Request :=
  { method := "POST", path := "/", query := []
    headers := [("content-type", "application/json")]
    jsonBody := .vStr "raw", textBody := "", formData := [] }

/-- An app whose request hook early-returns the context's current
`body` field when it is set — observably exposing what the previous
request left in the shared context record. -/
def staleBodyApp : App :=
  ((App.empty.onRequest (fun c =>
      (c, if c.body.isNullish then .vUndefined else c.body))).post "/x"
    (fun c => (c, .vStr "posted")) none).get "/y" (fun c => (c, .vStr "Y")) none

/-- A JSON POST to `/x` carrying the body `secret`. -/
def reqSecretX : Request :=
  { method := "POST", path := "/x", query := []
    headers := [("content-type", "application/json")]
    jsonBody := .vStr "secret", textBody := "", formData := [] }

def reqGetY : Request := mkReq "GET" "/y" [] []

/-- Distinguishable parse hooks used to observe registration order. -/
def pp1 : ParseFn := fun c _ => (c, .vStr "p1")

def pp2 : ParseFn := fun c _ => (c, .vStr "p2")

/-- Observation of a parse-hook list: the value each hook returns on a
fixed context. -/
def parseObs (l : List ParseFn) : List Value :=
  l.map (fun p => (p emptyContext "ct").2)

/-! ### Specification-side definitions (used for refinement claims) -/

/-- Specification wording of the short-circuit `afterHandle` pass: the
short-circuiting value is passed through all `afterHandle` hooks in
order, each replacing the running value (when it yields one). -/
def runAfterFold (as' : List AfterFn) (ctx : Context) (v : Value) :
    Context × Value :=
  as'.foldl (fun acc a =>
    let r := a acc.1 acc.2
    (r.1, if r.2.truthy then r.2 else acc.2)) (ctx, v)

/-- Specification wording of the `beforeHandle` stage: run the hooks in
order; the first result that is neither `null` nor `undefined`
short-circuits — it is passed through all `afterHandle` hooks and the
final value is mapped to the response; if every result is nullish,
there is no short-circuit. -/
def beforeHandleSpec : List HookFn → List AfterFn → Context →
    Context × Option Response
  | [], _, ctx => (ctx, none)
  | b :: bs, as', ctx =>
      let r := b ctx
      if r.2.isNullish then beforeHandleSpec bs as' r.1
      else
        let f := runAfterFold as' r.1 r.2
        (f.1, some (mapResponse f.2 f.1.set))

/-- Specification wording of the error-hook recovery pass: hooks run in
order; the first one whose result maps to a response short-circuits. -/
def firstErrHook : List ErrorFn → Request → Err → SetRec → String →
    SetRec × Option Response
  | [], _, _, set, _ => (set, none)
  | h :: hs, req, e, set, code =>
      let r := h req e set code
      match mapEarlyResponse r.2 r.1 with
      | some resp => (r.1, some resp)
      | none => firstErrHook hs req e r.1 code

/-- The body value produced when no custom parse hook is registered:
it depends only on the request. -/
def bodyNoParse (req : Request) : Value :=
  if req.method = "GET" then .vUndefined
  else
    match req.headers.lookup "content-type" with
    | none => .vUndefined
    | some ct0 => if ct0 = "" then .vUndefined else decodeBody (stripCT ct0) req

end Elysia

namespace Elysia

/-! ### Helper lemmas -/

theorem lookup_append_of_isSome {α : Type} {l1 l2 : List (String × α)} {k : String}
    (h : (List.lookup k l1).isSome) : List.lookup k (l1 ++ l2) = List.lookup k l1 := by
  induction l1 with
  | nil => simp at h
  | cons kv rest ih =>
      cases hk : (k == kv.1) with
      | true => simp [List.lookup, hk]
      | false =>
          simp only [List.lookup, hk] at h
          simp [List.lookup, hk, ih h]

theorem lookup_append_self {α : Type} (l : List (String × α)) (k : String) (v : α) :
    (List.lookup k (l ++ [(k, v)])).isSome := by
  induction l with
  | nil => simp [List.lookup]
  | cons kv rest ih =>
      cases hk : (k == kv.1) with
      | true => simp [List.lookup, hk]
      | false => simp [List.lookup, hk, ih]

theorem setModelDefs_cons (defs : Defs) (kv : String × TSchema)
    (rest : List (String × TSchema)) :
    App.setModelDefs defs (kv :: rest) =
      App.setModelDefs (if (List.lookup kv.1 defs).isSome then defs else defs ++ [kv]) rest :=
  rfl

theorem setModelDefs_preserves {rec : List (String × TSchema)} :
    ∀ {defs : Defs} {k : String}, (List.lookup k defs).isSome →
      (List.lookup k (App.setModelDefs defs rec)).isSome := by
  induction rec with
  | nil => intro defs k h; simpa [App.setModelDefs] using h
  | cons kv rest ih =>
      intro defs k h
      rw [setModelDefs_cons]
      by_cases hs : (List.lookup kv.1 defs).isSome
      · rw [if_pos hs]; exact ih h
      · rw [if_neg hs]
        apply ih
        rw [lookup_append_of_isSome h]
        exact h

theorem setModelDefs_mem {rec : List (String × TSchema)} :
    ∀ {defs : Defs} {kv : String × TSchema}, kv ∈ rec →
      (List.lookup kv.1 (App.setModelDefs defs rec)).isSome := by
  induction rec with
  | nil => intro _ _ h; cases h
  | cons hd rest ih =>
      intro defs kv h
      rw [setModelDefs_cons]
      rcases List.mem_cons.mp h with rfl | hmem
      · apply setModelDefs_preserves
        by_cases hs : (List.lookup kv.1 defs).isSome
        · rw [if_pos hs]; exact hs
        · rw [if_neg hs]; exact lookup_append_self defs kv.1 kv.2
      · exact ih hmem

theorem setModelDefs_noop {rec : List (String × TSchema)} :
    ∀ {defs : Defs}, (∀ kv ∈ rec, (List.lookup kv.1 defs).isSome) →
      App.setModelDefs defs rec = defs := by
  induction rec with
  | nil => intro _ _; rfl
  | cons hd rest ih =>
      intro defs h
      rw [setModelDefs_cons]
      have hhd := h hd (List.mem_cons_self hd rest)
      rw [if_pos hhd]
      exact ih (fun kv hm => h kv (List.mem_cons_of_mem hd hm))

theorem setModelDefs_idem (defs : Defs) (rec : List (String × TSchema)) :
    App.setModelDefs (App.setModelDefs defs rec) rec = App.setModelDefs defs rec :=
  setModelDefs_noop (fun _ hm => setModelDefs_mem hm)

/-! ### Claim theorems -/

/-- C9: model registration is write-once per name — `setModel` keeps
the first descriptor and a second registration of the same name is a
no-op (registering twice equals registering once), and `state` follows
the same first-call-wins rule for store keys. -/
theorem c9_registration_write_once :
    (∀ (defs : Defs) (k : String) (v w : TSchema), List.lookup k defs = some w →
        App.setModelDefs defs [(k, v)] = defs) ∧
    (∀ (app : App) (record : List (String × TSchema)),
        (app.setModel record).setModel record = app.setModel record) ∧
    (∀ (app : App) (k : String) (v1 v2 : Value),
        (app.state k v1).state k v2 = app.state k v1) := by
  refine ⟨?_, ?_, ?_⟩
  · intro defs k v w h
    simp [App.setModelDefs, h]
  · intro app record
    simp [App.setModel, setModelDefs_idem]
  · intro app k v1 v2
    by_cases hs : app.store.any (fun p => p.1 == k)
    · simp [App.state, hs]
    · simp only [App.state, hs, if_neg, if_false]
      have : ((app.store ++ [(k, v1)]).any (fun p => p.1 == k)) = true := by
        simp
      simp [this]

/-- Witness for C9: a registry holding `User` keeps its descriptor when
`User` is registered again. -/
theorem c9_registration_write_once_witness :
    App.setModelDefs [("User", tNameS)] [("User", tAS)] = [("User", tNameS)] :=
  c9_registration_write_once.1 [("User", tNameS)] "User" tAS tNameS rfl

/-- C5 (code bug): `onParse` does not append — it inserts the new hook
immediately before the last one (`splice(length - 1, 0, parser)`), so
two `onParse` registrations execute in the order second-then-first,
while the `on('parse', ...)` branch of the same file (documented to do
the exact same thing) does append. -/
theorem c5_onParse_not_append :
    parseObs ((App.empty.onParse pp1).onParse pp2).event.parse
      = [.vStr "p2", .vStr "p1"] ∧
    parseObs ((App.empty.onEventParse pp1).onEventParse pp2).event.parse
      = [.vStr "p1", .vStr "p2"] ∧
    [Value.vStr "p2", Value.vStr "p1"] ≠ [Value.vStr "p1", Value.vStr "p2"] := by
  refine ⟨rfl, rfl, by simp⟩

/-- C4 (code bug): the executor calls `.Check` on the status→validator
record itself (`validator?.response?.Check(response)`), a property that
does not exist, so every request to a route with a response schema
throws a `TypeError` after the handler ran and ends with status 500 and
code `UNKNOWN` — never the claimed 400/`VALIDATION`. -/
theorem c4_response_validation_crashes :
    routeResponseValidator respSchemaApp "GET" "/" = some [(200, .prim .fString)] ∧
    (handle respSchemaApp (mkReq "GET" "/" [] [])).1.status = 500 ∧
    Ev.handlerRun ∈ (handle respSchemaApp (mkReq "GET" "/" [] [])).2.2 ∧
    mapErrorCode responseCheckTypeError.message = "UNKNOWN" ∧
    (handle respSchemaApp (mkReq "GET" "/" [] [])).1.status ≠ 400 := by
  refine ⟨rfl, rfl, by decide, rfl, by decide⟩

/-- C2 (code bug): the compiled headers validator is stored under the
key `header` but the executor reads `validator.headers`, so header
validation never runs: a GET to a route whose only schema is
`headers: {a: string}`, sent without any header, answers 200 with the
handler's result (and the handler runs) although the empty header
record violates the compiled schema. -/
theorem c2_header_validator_skipped :
    routeHeaderValidator headersOnlyApp "GET" "/" = some (.obj [("a", .fString)] (some true)) ∧
    (handle headersOnlyApp (mkReq "GET" "/" [] [])).1.status = 200 ∧
    (handle headersOnlyApp (mkReq "GET" "/" [] [])).1.body = .vStr "hi" ∧
    Ev.handlerRun ∈ (handle headersOnlyApp (mkReq "GET" "/" [] [])).2.2 ∧
    checkValue (.obj [("a", .fString)] (some true)) (.vObj []) = false := by
  refine ⟨rfl, rfl, rfl, by decide, rfl⟩

end Elysia

namespace Elysia

theorem addHandler_event (app : App) (m p : String) (h : HandlerFn)
    (hk : Option LocalHook) : (app._addHandler m p h hk).event = app.event :=
  rfl

theorem foldl_event_invariant {β : Type} (f : App → β → App)
    (hf : ∀ a x, (f a x).event = a.event) :
    ∀ (l : List β) (acc : App), (l.foldl f acc).event = acc.event := by
  intro l
  induction l with
  | nil => intro acc; rfl
  | cons x xs ih => intro acc; rw [List.foldl_cons, ih, hf]

theorem runRequestHooks_all_run :
    ∀ (hs : List HookFn) (ctx : Context) (i : Nat) (tr : Trace),
      (runRequestHooks hs ctx i tr).2.2 = none →
      (runRequestHooks hs ctx i tr).2.1 =
        tr ++ (List.range hs.length).map (fun j => Ev.reqHook (i + j)) := by
  intro hs
  induction hs with
  | nil => intro ctx i tr _; simp [runRequestHooks]
  | cons h rest ih =>
      intro ctx i tr hnone
      rw [runRequestHooks] at hnone ⊢
      cases hm : mapEarlyResponse (h ctx).2 (h ctx).1.set with
      | some resp => rw [hm] at hnone; simp at hnone
      | none =>
          rw [hm] at hnone
          dsimp only at hnone ⊢
          rw [ih _ _ _ hnone]
          simp [List.range_succ_eq_map, List.map_map, Function.comp,
            List.append_assoc, Nat.add_assoc, Nat.add_comm 1]

theorem group_event_request (app : App) (pfx : String) (run : App → App) :
    (app.group pfx run).event.request =
      app.event.request ++ (run { App.empty with store := app.store }).event.request := by
  simp only [App.group]
  rw [foldl_event_invariant
    (App.groupStep pfx (run { App.empty with store := app.store }).event.error)
    (fun a x => rfl)]
  by_cases hreq : (run { App.empty with store := app.store }).event.request.isEmpty
  · rw [List.isEmpty_iff] at hreq
    simp [App.setModel, hreq]
  · simp [App.setModel, hreq]

theorem guard_event_request (app : App) (hook : LocalHook) (run : App → App) :
    (app.guard hook run).event.request =
      app.event.request ++ (run { App.empty with store := app.store }).event.request := by
  simp only [App.guard]
  rw [foldl_event_invariant (App.guardStep hook) (fun a x => rfl)]
  by_cases hreq : (run { App.empty with store := app.store }).event.request.isEmpty
  · rw [List.isEmpty_iff] at hreq
    simp [App.setModel, hreq]
  · simp [App.setModel, hreq]

/-- C10: folding a `group` or `guard` child back into the parent
appends every `onRequest` hook the child registered to the parent's
global request-hook list; the executor runs the whole global list for
every request (whichever route it targets) as long as no earlier hook
short-circuits — demonstrated on the delegation test: the counter
hook registered inside `group('/counter', ...)` also runs for `GET /`,
so the subsequent `GET /counter` answers `2`. -/
theorem c10_group_request_hooks_global :
    (∀ (app : App) (pfx : String) (run : App → App),
        (app.group pfx run).event.request =
          app.event.request ++ (run { App.empty with store := app.store }).event.request) ∧
    (∀ (app : App) (hook : LocalHook) (run : App → App),
        (app.guard hook run).event.request =
          app.event.request ++ (run { App.empty with store := app.store }).event.request) ∧
    (∀ (hs : List HookFn) (ctx : Context) (tr : Trace),
        (runRequestHooks hs ctx 0 tr).2.2 = none →
        (runRequestHooks hs ctx 0 tr).2.1 =
          tr ++ (List.range hs.length).map (fun j => Ev.reqHook j)) ∧
    ((handle c10App (mkReq "GET" "/" [] [])).1.body = .vStr "A" ∧
      Ev.reqHook 0 ∈ (handle c10App (mkReq "GET" "/" [] [])).2.2 ∧
      (handle (handle c10App (mkReq "GET" "/" [] [])).2.1
          (mkReq "GET" "/counter" [] [])).1.body = .vNum 2) := by
  refine ⟨group_event_request, guard_event_request, ?_, rfl, by decide, rfl⟩
  intro hs ctx tr h
  simpa using runRequestHooks_all_run hs ctx 0 tr h

/-- Witness for C10: on the delegation test application, whose global
request-hook list never short-circuits for `GET /`, all registered
request hooks appear in the trace. -/
theorem c10_group_request_hooks_global_witness :
    (runRequestHooks c10App.event.request (initCtx c10App.ctxObj c10App.store
        (mkReq "GET" "/" [] [])) 0 []).2.1 = [Ev.reqHook 0] := by
  have h := c10_group_request_hooks_global.2.2.1 c10App.event.request
    (initCtx c10App.ctxObj c10App.store (mkReq "GET" "/" [] [])) [] rfl
  simpa using h

end Elysia

namespace Elysia

/-- C7 counterexample: `handle` reads the scope's `parse` hooks live
(`this.event.parse`), not from the route entry — registering a parser
with `onParse` *after* the route was registered changes the body (and
hence the response) observed when that route later handles a request,
and the late parser itself runs. -/
theorem c7_counterexample_onParse_live :
    echoBodyAppWithParser = echoBodyApp.onParse fromParserFn ∧
    (handle echoBodyApp reqPostJson).1.body = .vStr "raw" ∧
    (handle echoBodyAppWithParser reqPostJson).1.body = .vStr "fromParser" ∧
    Ev.parseHook 0 ∈ (handle echoBodyAppWithParser reqPostJson).2.2 ∧
    Value.vStr "raw" ≠ Value.vStr "fromParser" := by
  refine ⟨rfl, rfl, rfl, by decide, by simp⟩

/-- C7 (amended): route entries (with their merged hook arrays) are
never touched by later lifecycle registrations, and a later
`onTransform` / `onBeforeHandle` / `onAfterHandle` does not change any
route's handling — those hooks are read from the frozen route entry.
`onParse` (and global error hooks via `onError`) are instead read live
from the scope at request time. -/
theorem c7_route_entries_frozen :
    (∀ (app : App) (t : TransformFn), (app.onTransform t).router = app.router) ∧
    (∀ (app : App) (b : HookFn), (app.onBeforeHandle b).router = app.router) ∧
    (∀ (app : App) (a : AfterFn), (app.onAfterHandle a).router = app.router) ∧
    (∀ (app : App) (e : ErrorFn), (app.onError e).router = app.router) ∧
    (∀ (app : App) (p : ParseFn), (app.onParse p).router = app.router) ∧
    (∀ (app : App) (t : TransformFn) (req : Request),
        (handle (app.onTransform t) req).1 = (handle app req).1 ∧
        (handle (app.onTransform t) req).2.2 = (handle app req).2.2) ∧
    (∀ (app : App) (b : HookFn) (req : Request),
        (handle (app.onBeforeHandle b) req).1 = (handle app req).1 ∧
        (handle (app.onBeforeHandle b) req).2.2 = (handle app req).2.2) ∧
    (∀ (app : App) (a : AfterFn) (req : Request),
        (handle (app.onAfterHandle a) req).1 = (handle app req).1 ∧
        (handle (app.onAfterHandle a) req).2.2 = (handle app req).2.2) :=
  ⟨fun _ _ => rfl, fun _ _ => rfl, fun _ _ => rfl, fun _ _ => rfl, fun _ _ => rfl,
   fun _ _ _ => ⟨rfl, rfl⟩, fun _ _ _ => ⟨rfl, rfl⟩, fun _ _ _ => ⟨rfl, rfl⟩⟩

end Elysia

namespace Elysia

theorem recoverFromError_fst (he : Option (List ErrorFn)) (gErr : List ErrorFn)
    (req : Request) (e : Err) (ctx ctx' : Context) (tr : Trace)
    (hset : ctx.set = ctx'.set) :
    (recoverFromError he gErr req e ctx tr).1 = (recoverFromError he gErr req e ctx' tr).1 := by
  unfold recoverFromError
  rw [hset]
  dsimp only
  rcases h : runErrorHooks (he.getD []) req e (bump500 ctx'.set) (mapErrorCode e.message) 0 tr
    with ⟨set2, tr2, r⟩
  cases r with
  | some resp => rfl
  | none => rfl

theorem acquireBody_nil (ctx : Context) (req : Request) (tr : Trace) :
    acquireBody [] ctx req tr = (ctx, tr, bodyNoParse req) := by
  unfold acquireBody bodyNoParse
  by_cases hg : req.method = "GET"
  · simp [hg]
  · cases hl : req.headers.lookup "content-type" with
    | none => simp [hg, hl]
    | some ct0 =>
        by_cases he : ct0 = ""
        · simp [hg, hl, he]
        · simp [hg, hl, he, runParseHooks]

theorem handle_fst (app : App) (req : Request) :
    (handle app req).1 = (handleAux app.router app.event.request app.event.parse
      app.event.error app.store app.ctxObj req).1 := by
  unfold handle
  rcases hA : handleAux app.router app.event.request app.event.parse
    app.event.error app.store app.ctxObj req with ⟨r, ctx, tr⟩
  rfl

theorem handleAux_nil_hooks (router : List RouteRec) (gErr : List ErrorFn)
    (store : List (String × Value)) (c c' : Context) (req : Request)
    (hst : c.store = c'.store) (hex : c.extra = c'.extra) :
    (handleAux router [] [] gErr store c req).1 =
      (handleAux router [] [] gErr store c' req).1 := by
  unfold handleAux runPipeline
  simp only [runRequestHooks]
  cases hm : matchRouter router req.method req.path <|> matchRouter router "ALL" req.path with
  | none =>
      simp only [hm]
      exact recoverFromError_fst _ _ _ _ _ _ _ rfl
  | some pr =>
      simp only [hm, acquireBody_nil]
      have hctx :
          ({ initCtx c store req with
              body := bodyNoParse req
              params := pr.2
              query := req.query } : Context) =
          ({ initCtx c' store req with
              body := bodyNoParse req
              params := pr.2
              query := req.query } : Context) := by
        cases c; cases c'
        simp_all [initCtx]
      rw [hctx]

/-- C8 counterexample: the Context record is the scope's `decorators`
object reused across requests — a request hook that early-returns the
context's current `body` observes the body left by the previous
request, so two `GET /y` requests produce different responses
depending on the `POST /x` handled in between. -/
theorem c8_counterexample_stale_context :
    (handle staleBodyApp reqGetY).1.body = .vStr "Y" ∧
    (handle (handle staleBodyApp reqSecretX).2.1 reqGetY).1.body = .vStr "secret" ∧
    Value.vStr "Y" ≠ Value.vStr "secret" :=
  ⟨rfl, rfl, by simp⟩

/-- C8 (amended): `handle` freshly assigns `set` (status 200, empty
headers) and the current request at the start of every call, and
overwrites `params`, `query` and `body` before the transform /
validation / handler stages; when the application has no request hooks
and no parse hooks, the response is therefore independent of the
`params`/`query`/`body`/`set` values a previous request left in the
shared context record (only its `store` and decorated keys matter).
Request-stage (and parse-stage) hooks, however, can observe the stale
fields, which refutes the unconditional claim. -/
theorem c8_amended_freshness :
    (∀ (c : Context) (store : List (String × Value)) (req : Request),
        (initCtx c store req).set = { status := 200, headers := [] } ∧
        (initCtx c store req).request = req) ∧
    (∀ (app : App) (c c' : Context) (req : Request),
        app.event.request = [] → app.event.parse = [] →
        c.store = c'.store → c.extra = c'.extra →
        (handle { app with ctxObj := c } req).1 =
          (handle { app with ctxObj := c' } req).1) := by
  refine ⟨fun c store req => ⟨rfl, rfl⟩, ?_⟩
  intro app c c' req h1 h2 hst hex
  rw [handle_fst, handle_fst]
  show (handleAux app.router app.event.request app.event.parse app.event.error
      app.store c req).1 = (handleAux app.router app.event.request app.event.parse
      app.event.error app.store c' req).1
  rw [h1, h2]
  exact handleAux_nil_hooks app.router app.event.error app.store c c' req hst hex

/-- Witness for C8 (amended): with no request/parse hooks, a stale
body left in the context record does not change the response. -/
theorem c8_amended_freshness_witness :
    (handle { echoBodyApp with ctxObj := { emptyContext with body := .vStr "stale" } }
        reqPostJson).1 =
      (handle { echoBodyApp with ctxObj := emptyContext } reqPostJson).1 :=
  c8_amended_freshness.2 echoBodyApp { emptyContext with body := .vStr "stale" }
    emptyContext reqPostJson rfl rfl rfl rfl

end Elysia

namespace Elysia

theorem truthy_not_nullish (v : Value) : v.truthy = true → v.isNullish = false := by
  cases v <;> simp [Value.truthy, Value.isNullish]

theorem runAfterChain_eq_fold :
    ∀ (as' : List AfterFn) (ctx : Context) (v : Value) (i : Nat) (tr : Trace),
      ((runAfterChain as' ctx v i tr).1, (runAfterChain as' ctx v i tr).2.1) =
        runAfterFold as' ctx v := by
  intro as'
  induction as' with
  | nil => intros; rfl
  | cons a rest ih =>
      intro ctx v i tr
      rw [runAfterChain]
      rw [ih]
      rfl

theorem runAfterFold_nonNullish :
    ∀ (as' : List AfterFn) (ctx : Context) (v : Value),
      v.isNullish = false → ((runAfterFold as' ctx v).2).isNullish = false := by
  intro as'
  induction as' with
  | nil => intro ctx v h; exact h
  | cons a rest ih =>
      intro ctx v h
      have hstep : runAfterFold (a :: rest) ctx v =
          runAfterFold rest (a ctx v).1
            (if (a ctx v).2.truthy then (a ctx v).2 else v) := rfl
      rw [hstep]
      apply ih
      by_cases ht : (a ctx v).2.truthy
      · simp [ht, truthy_not_nullish _ ht]
      · simp [ht, h]

theorem runBeforeHandle_spec :
    ∀ (bs : List HookFn) (as' : List AfterFn) (ctx : Context) (i : Nat) (tr : Trace),
      ((runBeforeHandle bs as' ctx i tr).1, (runBeforeHandle bs as' ctx i tr).2.2) =
        beforeHandleSpec bs as' ctx := by
  intro bs
  induction bs with
  | nil => intros; rfl
  | cons b rest ih =>
      intro as' ctx i tr
      rw [runBeforeHandle, beforeHandleSpec]
      cases hn : (b ctx).2.isNullish with
      | true => simp only [if_pos rfl]; exact ih as' (b ctx).1 (i + 1) (tr ++ [Ev.beforeHook i])
      | false =>
          simp only [Bool.false_eq_true, if_false]
          rcases hA : runAfterChain as' (b ctx).1 (b ctx).2 0 (tr ++ [Ev.beforeHook i])
            with ⟨c2, v2, tr2⟩
          have hpair := runAfterChain_eq_fold as' (b ctx).1 (b ctx).2 0 (tr ++ [Ev.beforeHook i])
          rw [hA] at hpair
          have hc2 : c2 = (runAfterFold as' (b ctx).1 (b ctx).2).1 := by
            have := congrArg Prod.fst hpair; simpa using this
          have hv2 : v2 = (runAfterFold as' (b ctx).1 (b ctx).2).2 := by
            have := congrArg Prod.snd hpair; simpa using this
          have hvn : v2.isNullish = false := by
            rw [hv2]; exact runAfterFold_nonNullish as' (b ctx).1 (b ctx).2 hn
          rw [show mapEarlyResponse v2 c2.set = some (mapResponse v2 c2.set) by
            simp [mapEarlyResponse, hvn]]
          rw [hc2, hv2]

theorem runAfterChain_trace :
    ∀ (as' : List AfterFn) (ctx : Context) (v : Value) (i : Nat) (tr : Trace),
      ∃ ext, (runAfterChain as' ctx v i tr).2.2 = tr ++ ext ∧ Ev.handlerRun ∉ ext := by
  intro as'
  induction as' with
  | nil => intro ctx v i tr; exact ⟨[], by simp [runAfterChain]⟩
  | cons a rest ih =>
      intro ctx v i tr
      rw [runAfterChain]
      obtain ⟨ext, hext, hmem⟩ := ih (a ctx v).1
        (if (a ctx v).2.truthy then (a ctx v).2 else v) (i + 1) (tr ++ [Ev.afterHook i])
      exact ⟨[Ev.afterHook i] ++ ext, by simp [hext], by simp [hmem]⟩

theorem runBeforeHandle_trace :
    ∀ (bs : List HookFn) (as' : List AfterFn) (ctx : Context) (i : Nat) (tr : Trace),
      ∃ ext, (runBeforeHandle bs as' ctx i tr).2.1 = tr ++ ext ∧ Ev.handlerRun ∉ ext := by
  intro bs
  induction bs with
  | nil => intro as' ctx i tr; exact ⟨[], by simp [runBeforeHandle]⟩
  | cons b rest ih =>
      intro as' ctx i tr
      rw [runBeforeHandle]
      cases hn : (b ctx).2.isNullish with
      | true =>
          simp only [if_pos rfl]
          obtain ⟨ext, hext, hmem⟩ := ih as' (b ctx).1 (i + 1) (tr ++ [Ev.beforeHook i])
          exact ⟨[Ev.beforeHook i] ++ ext, by simp [hext], by simp [hmem]⟩
      | false =>
          simp only [Bool.false_eq_true, if_false]
          rcases hA : runAfterChain as' (b ctx).1 (b ctx).2 0 (tr ++ [Ev.beforeHook i])
            with ⟨c2, v2, tr2⟩
          have htr2 := runAfterChain_trace as' (b ctx).1 (b ctx).2 0 (tr ++ [Ev.beforeHook i])
          rw [hA] at htr2
          obtain ⟨ext, hext, hmem⟩ := htr2
          cases hmr : mapEarlyResponse v2 c2.set with
          | some resp =>
              exact ⟨[Ev.beforeHook i] ++ ext, by simp at hext; simp [hext], by simp [hmem]⟩
          | none =>
              dsimp only
              obtain ⟨ext2, hext2, hmem2⟩ := ih as' c2 (i + 1) tr2
              refine ⟨[Ev.beforeHook i] ++ ext ++ ext2, ?_, ?_⟩
              · dsimp only at hext
                rw [hext2, hext]
                simp
              · simp [hmem, hmem2]

theorem runAfterMain_mem :
    ∀ (as' : List AfterFn) (ctx : Context) (v : Value) (i : Nat) (tr : Trace) (e : Ev),
      e ∈ tr → e ∈ (runAfterMain as' ctx v i tr).2.1 := by
  intro as'
  induction as' with
  | nil => intro ctx v i tr e h; simpa [runAfterMain] using h
  | cons a rest ih =>
      intro ctx v i tr e h
      rw [runAfterMain]
      cases hm : mapEarlyResponse (a ctx v).2 (a ctx v).1.set with
      | some resp => simp [h]
      | none => exact ih (a ctx v).1 v (i + 1) (tr ++ [Ev.afterHook i]) e (by simp [h])

theorem runCoreC_mem (hooks : Option LocalHook) (c3 : Context) (rv : Value)
    (tr3 : Trace) (he1 : Option (List ErrorFn)) (e : Ev) (h : e ∈ tr3) :
    e ∈ (runCore.runCoreC hooks c3 rv tr3 he1).2.1 := by
  cases hooks with
  | none => simpa [runCore.runCoreC] using h
  | some hk =>
      rw [runCore.runCoreC]
      rcases hA : runAfterMain hk.afterHandle c3 rv 0 tr3 with ⟨c4, tr4, r⟩
      have := runAfterMain_mem hk.afterHandle c3 rv 0 tr3 e h
      rw [hA] at this
      cases r with
      | some resp => simpa using this
      | none => simpa using this

/-- C3: the `beforeHandle` stage follows the specification — hooks run
in order and the first result that is neither `null` nor `undefined`
short-circuits through all `afterHandle` hooks (each may replace the
running value) and is mapped to the response; when the stage
short-circuits the user handler never runs, and when every result is
nullish the user handler runs. -/
theorem c3_beforeHandle_short_circuit :
    (∀ (bs : List HookFn) (as' : List AfterFn) (ctx : Context) (i : Nat) (tr : Trace),
        ((runBeforeHandle bs as' ctx i tr).1, (runBeforeHandle bs as' ctx i tr).2.2) =
          beforeHandleSpec bs as' ctx) ∧
    (∀ (hk : LocalHook) (validator : Option SchemaValidator) (handler : HandlerFn)
        (ctx1 : Context) (tr1 : Trace) (he1 : Option (List ErrorFn))
        (c2 : Context) (tr2 : Trace) (resp : Response),
        runBeforeHandle hk.beforeHandle hk.afterHandle ctx1 0 tr1 = (c2, tr2, some resp) →
        runCore.runCoreB (some hk) validator handler ctx1 tr1 he1 = (c2, tr2, .ok resp, he1) ∧
        (Ev.handlerRun ∉ tr1 → Ev.handlerRun ∉ tr2)) ∧
    (∀ (hk : LocalHook) (validator : Option SchemaValidator) (handler : HandlerFn)
        (ctx1 : Context) (tr1 : Trace) (he1 : Option (List ErrorFn))
        (c2 : Context) (tr2 : Trace),
        runBeforeHandle hk.beforeHandle hk.afterHandle ctx1 0 tr1 = (c2, tr2, none) →
        Ev.handlerRun ∈ (runCore.runCoreB (some hk) validator handler ctx1 tr1 he1).2.1) := by
  refine ⟨runBeforeHandle_spec, ?_, ?_⟩
  · intro hk validator handler ctx1 tr1 he1 c2 tr2 resp hrun
    constructor
    · rw [runCore.runCoreB, hrun]
    · intro hnot
      obtain ⟨ext, hext, hmem⟩ := runBeforeHandle_trace hk.beforeHandle hk.afterHandle ctx1 0 tr1
      rw [hrun] at hext
      simp only at hext
      rw [hext]
      simp [hnot, hmem]
  · intro hk validator handler ctx1 tr1 he1 c2 tr2 hrun
    rw [runCore.runCoreB, hrun]
    dsimp only
    cases validator with
    | none =>
        exact runCoreC_mem (some hk) (handler c2).1 (handler c2).2
          (tr2 ++ [Ev.handlerRun]) he1 Ev.handlerRun (by simp)
    | some v =>
        cases hv : v.response.isSome with
        | true => simp [hv]
        | false =>
            simp only [hv, Bool.false_eq_true, if_false]
            exact runCoreC_mem (some hk) (handler c2).1 (handler c2).2
              (tr2 ++ [Ev.handlerRun]) he1 Ev.handlerRun (by simp)

/-- Witness for C3: a `beforeHandle` hook returning `early`
short-circuits — the handler is skipped and the value is mapped to the
response — and with no `beforeHandle` hooks the handler runs. -/
theorem c3_beforeHandle_short_circuit_witness :
    runCore.runCoreB (some { lhNone with beforeHandle := [fun c => (c, .vStr "early")] })
        none hA emptyContext [] none =
      (emptyContext, [Ev.beforeHook 0], .ok (mapResponse (.vStr "early") emptyContext.set), none) ∧
    Ev.handlerRun ∈ (runCore.runCoreB (some lhNone) none hA emptyContext [] none).2.1 := by
  constructor
  · exact (c3_beforeHandle_short_circuit.2.1
      { lhNone with beforeHandle := [fun c => (c, .vStr "early")] } none hA emptyContext [] none
      emptyContext [Ev.beforeHook 0] (mapResponse (.vStr "early") emptyContext.set) rfl).1
  · exact c3_beforeHandle_short_circuit.2.2 lhNone none hA emptyContext [] none
      emptyContext [] rfl

end Elysia

namespace Elysia

theorem runErrorHooks_spec :
    ∀ (hs : List ErrorFn) (req : Request) (e : Err) (set : SetRec) (code : String)
      (i : Nat) (tr : Trace),
      ((runErrorHooks hs req e set code i tr).1, (runErrorHooks hs req e set code i tr).2.2) =
        firstErrHook hs req e set code := by
  intro hs
  induction hs with
  | nil => intros; rfl
  | cons h rest ih =>
      intro req e set code i tr
      rw [runErrorHooks, firstErrHook]
      cases hm : mapEarlyResponse (h req e set code).2 (h req e set code).1 with
      | some resp => rfl
      | none => exact ih req e (h req e set code).1 code (i + 1) (tr ++ [Ev.errHook i])

theorem runErrorHooks_trace :
    ∀ (hs : List ErrorFn) (req : Request) (e : Err) (set : SetRec) (code : String)
      (i : Nat) (tr : Trace),
      ∃ ext, (runErrorHooks hs req e set code i tr).2.1 = tr ++ ext ∧
        ∀ x ∈ ext, ∃ j, x = Ev.errHook j := by
  intro hs
  induction hs with
  | nil => intro req e set code i tr; exact ⟨[], by simp [runErrorHooks]⟩
  | cons h rest ih =>
      intro req e set code i tr
      rw [runErrorHooks]
      cases hm : mapEarlyResponse (h req e set code).2 (h req e set code).1 with
      | some resp => exact ⟨[Ev.errHook i], by simp, by simp⟩
      | none =>
          obtain ⟨ext, hext, hall⟩ := ih req e (h req e set code).1 code (i + 1)
            (tr ++ [Ev.errHook i])
          refine ⟨[Ev.errHook i] ++ ext, ?_, ?_⟩
          · simp [hext]
          · intro x hx
            rcases List.mem_append.mp hx with hx | hx
            · exact ⟨i, by simpa using hx⟩
            · exact hall x hx

/-- C6: when the pipeline raises, recovery runs the route-level error
hooks in order — the first result that maps to a response
short-circuits the remaining hooks and the global/default handling —
then the global error hooks in the same manner, and otherwise the
default handler answers with the status derived from the error's code
(`VALIDATION→400, NOT_FOUND→404, INTERNAL_SERVER_ERROR/UNKNOWN→500`,
unrecognized codes `→500`) and a plain-text body holding the error's
cause or message. -/
theorem c6_error_recovery_order :
    (∀ (hs : List ErrorFn) (req : Request) (e : Err) (set : SetRec) (code : String)
        (i : Nat) (tr : Trace),
        ((runErrorHooks hs req e set code i tr).1,
          (runErrorHooks hs req e set code i tr).2.2) =
          firstErrHook hs req e set code) ∧
    (∀ (hs : List ErrorFn) (gErr : List ErrorFn) (req : Request) (e : Err)
        (ctx : Context) (tr : Trace) (set2 : SetRec) (tr2 : Trace) (resp : Response),
        runErrorHooks hs req e (bump500 ctx.set) (mapErrorCode e.message) 0 tr =
          (set2, tr2, some resp) →
        (recoverFromError (some hs) gErr req e ctx tr).1 = resp ∧
        (∀ j, Ev.gErrHook j ∉ tr → Ev.gErrHook j ∉ tr2)) ∧
    (∀ (hs : List ErrorFn) (gErr : List ErrorFn) (req : Request) (e : Err)
        (ctx : Context) (tr : Trace) (set2 : SetRec) (tr2 : Trace),
        runErrorHooks hs req e (bump500 ctx.set) (mapErrorCode e.message) 0 tr =
          (set2, tr2, none) →
        (recoverFromError (some hs) gErr req e ctx tr).1 =
          (handleErrorFn gErr req e set2 0 tr2).1) ∧
    (∀ (req : Request) (e : Err) (set : SetRec) (i : Nat) (tr : Trace),
        handleErrorFn [] req e set i tr =
          ({ status := mapErrorStatus (mapErrorCode e.message)
             headers := set.headers
             body := .vStr (e.cause.getD e.message) }, set, tr)) ∧
    (mapErrorStatus (mapErrorCode "VALIDATION") = 400 ∧
      mapErrorStatus (mapErrorCode "NOT_FOUND") = 404 ∧
      mapErrorStatus (mapErrorCode "INTERNAL_SERVER_ERROR") = 500 ∧
      mapErrorStatus (mapErrorCode "UNKNOWN") = 500 ∧
      (∀ m : String, m ≠ "NOT_FOUND" → m ≠ "INTERNAL_SERVER_ERROR" →
        m ≠ "VALIDATION" → m ≠ "UNKNOWN" → mapErrorStatus (mapErrorCode m) = 500)) ∧
    (∀ (app : App) (req : Request) (ctx : Context) (tr : Trace) (e : Err)
        (he : Option (List ErrorFn)),
        runPipeline app.router app.event.request app.event.parse
          (initCtx app.ctxObj app.store req) req = (ctx, tr, .err e, he) →
        (handle app req).1 = (recoverFromError he app.event.error req e ctx tr).1) := by
  refine ⟨runErrorHooks_spec, ?_, ?_, fun _ _ _ _ _ => rfl, ?_, ?_⟩
  · intro hs gErr req e ctx tr set2 tr2 resp hrun
    constructor
    · unfold recoverFromError
      dsimp only
      rw [show (some hs).getD [] = hs from rfl, hrun]
    · intro j hnot
      obtain ⟨ext, hext, hall⟩ := runErrorHooks_trace hs req e (bump500 ctx.set)
        (mapErrorCode e.message) 0 tr
      rw [hrun] at hext
      simp only at hext
      rw [hext]
      intro hmem
      rcases List.mem_append.mp hmem with hmem | hmem
      · exact hnot hmem
      · obtain ⟨jj, hjj⟩ := hall _ hmem
        cases hjj
  · intro hs gErr req e ctx tr set2 tr2 hrun
    unfold recoverFromError
    dsimp only
    rw [show (some hs).getD [] = hs from rfl, hrun]
  · refine ⟨rfl, rfl, rfl, rfl, ?_⟩
    intro m h1 h2 h3 h4
    simp [mapErrorCode, mapErrorStatus, h1, h2, h3, h4]
  · intro app req ctx tr e he hp
    rw [handle_fst]
    unfold handleAux
    dsimp only
    rw [hp]

/-- Witness for C6: a route-level hook returning `handled`
short-circuits; with no route-level hooks recovery falls through to the
global stage; an unrecognized message maps to status 500. -/
theorem c6_error_recovery_order_witness :
    (recoverFromError (some [fun _ _ set _ => (set, .vStr "handled")]) [] emptyRequest
        { message := "X", cause := none } emptyContext []).1 =
      mapResponse (.vStr "handled") (bump500 emptyContext.set) ∧
    (recoverFromError (some []) [] emptyRequest { message := "X", cause := none }
        emptyContext []).1 =
      (handleErrorFn [] emptyRequest { message := "X", cause := none }
        (bump500 emptyContext.set) 0 []).1 ∧
    mapErrorStatus (mapErrorCode "BOOM") = 500 := by
  obtain ⟨ha, hb, hc, hd, he5, hf⟩ := c6_error_recovery_order
  refine ⟨?_, ?_, ?_⟩
  · exact (hb [fun _ _ set _ => (set, .vStr "handled")] [] emptyRequest
      { message := "X", cause := none } emptyContext [] (bump500 emptyContext.set)
      [Ev.errHook 0] (mapResponse (.vStr "handled") (bump500 emptyContext.set)) rfl).1
  · exact hc [] [] emptyRequest { message := "X", cause := none } emptyContext []
      (bump500 emptyContext.set) [] rfl
  · exact he5.2.2.2.2 "BOOM" (by decide) (by decide) (by decide) (by decide)

end Elysia

namespace Elysia

theorem handle_trace (app : App) (req : Request) :
    (handle app req).2.2 = (handleAux app.router app.event.request app.event.parse
      app.event.error app.store app.ctxObj req).2.2 := by
  unfold handle
  rcases hA : handleAux app.router app.event.request app.event.parse
    app.event.error app.store app.ctxObj req with ⟨r, ctx, tr⟩
  rfl

theorem handleAux_err (router : List RouteRec) (reqHooks : List HookFn)
    (parseHooks : List ParseFn) (gErr : List ErrorFn)
    (store : List (String × Value)) (cobj : Context) (req : Request)
    (ctx : Context) (tr : Trace) (e : Err) (he : Option (List ErrorFn))
    (hp : runPipeline router reqHooks parseHooks (initCtx cobj store req) req =
      (ctx, tr, .err e, he)) :
    handleAux router reqHooks parseHooks gErr store cobj req =
      recoverFromError he gErr req e ctx tr := by
  unfold handleAux
  dsimp only
  rw [hp]

theorem runCore_valfail (sch : Option TypedSchema) (ps : List ParseFn)
    (bh : List HookFn) (ah : List AfterFn) (errs : List ErrorFn)
    (v : SchemaValidator) (handler : HandlerFn) (req : Request) (ctx : Context)
    (b : Value) (tr : Trace) (he : Option (List ErrorFn)) (e : Err)
    (hv : runValidators v req ctx.params ctx.query b = some e) :
    runCore (some { schema := sch, parse := ps, transform := [], beforeHandle := bh
                    afterHandle := ah, error := errs }) (some v) handler req ctx b tr he =
      (ctx, tr, .err e, some errs) := by
  show (match runValidators v req ctx.params ctx.query b with
        | some err => (ctx, tr, Outcome.err err, some errs)
        | none => runCore.runCoreB
            (some { schema := sch, parse := ps, transform := [], beforeHandle := bh
                    afterHandle := ah, error := errs })
            (some v) handler ctx tr (some errs)) = (ctx, tr, .err e, some errs)
  rw [hv]

theorem recover_default (req : Request) (e : Err) (ctx : Context) (tr : Trace) :
    recoverFromError (some []) [] req e ctx tr =
      ({ status := mapErrorStatus (mapErrorCode e.message)
         headers := (bump500 ctx.set).headers
         body := .vStr (e.cause.getD e.message) },
        { ctx with set := bump500 ctx.set }, tr) :=
  rfl

/-- C1: in the nested-guard example (guard-level query schema
`{name: string}`, nested guard with header schema `{a: string}` around
`GET /a` which also declares a body schema), every GET request to `/a`
without a header `a` fails validation with status 400 and the leaf
route's user handler is never invoked. -/
theorem c1_nested_guard_rejects (q hs : List (String × String)) (jb : Value)
    (tb : String) (fd : List (String × String)) (hlacks : hs.lookup "a" = none) :
    (handle c1App (mkGetA q hs jb tb fd)).1.status = 400 ∧
    Ev.handlerRun ∉ (handle c1App (mkGetA q hs jb tb fd)).2.2 := by
  obtain ⟨e, hval, hmsg⟩ :
      ∃ e, runValidators c1EntryValidator (mkGetA q hs jb tb fd)
          (c1Ctx q hs jb tb fd).params (c1Ctx q hs jb tb fd).query .vUndefined = some e ∧
        e.message = "VALIDATION" := by
    cases hq : checkValue (TSchema.obj [("name", FieldType.fString)] (some false))
        (multiObj q) with
    | false =>
        refine ⟨createValidationError "query"
          (TSchema.obj [("name", FieldType.fString)] (some false)) (multiObj q), ?_, rfl⟩
        show (if checkValue (TSchema.obj [("name", FieldType.fString)] (some false))
                (multiObj q)
              then runValidators.runValidatorsB c1EntryValidator .vUndefined
              else some (createValidationError "query"
                (TSchema.obj [("name", FieldType.fString)] (some false)) (multiObj q))) = _
        rw [hq]
        simp
    | true =>
        refine ⟨createValidationError "body"
          (TSchema.obj [("username", FieldType.fString)] (some false)) .vUndefined, ?_, rfl⟩
        show (if checkValue (TSchema.obj [("name", FieldType.fString)] (some false))
                (multiObj q)
              then runValidators.runValidatorsB c1EntryValidator .vUndefined
              else some (createValidationError "query"
                (TSchema.obj [("name", FieldType.fString)] (some false)) (multiObj q))) = _
        rw [hq]
        simp only [if_pos]
        rfl
  have hcore := runCore_valfail c1EntryHooks.schema [] [bhNoop] [] []
    c1EntryValidator hA (mkGetA q hs jb tb fd) (c1Ctx q hs jb tb fd) .vUndefined []
    (some []) e hval
  have hpipe : runPipeline c1App.router c1App.event.request c1App.event.parse
      (initCtx c1App.ctxObj c1App.store (mkGetA q hs jb tb fd)) (mkGetA q hs jb tb fd) =
      (c1Ctx q hs jb tb fd, [], .err e, some []) := by
    have hstep : runPipeline c1App.router c1App.event.request c1App.event.parse
        (initCtx c1App.ctxObj c1App.store (mkGetA q hs jb tb fd)) (mkGetA q hs jb tb fd) =
        runCore (some c1EntryHooks) (some c1EntryValidator) hA (mkGetA q hs jb tb fd)
          (c1Ctx q hs jb tb fd) .vUndefined [] (some []) := rfl
    rw [hstep]
    exact hcore
  constructor
  · rw [handle_fst, handleAux_err _ _ _ _ _ _ _ _ _ _ _ hpipe]
    show (recoverFromError (some []) [] (mkGetA q hs jb tb fd) e
      (c1Ctx q hs jb tb fd) []).1.status = 400
    rw [recover_default]
    show mapErrorStatus (mapErrorCode e.message) = 400
    rw [hmsg]
    rfl
  · rw [handle_trace, handleAux_err _ _ _ _ _ _ _ _ _ _ _ hpipe]
    show Ev.handlerRun ∉ (recoverFromError (some []) [] (mkGetA q hs jb tb fd) e
      (c1Ctx q hs jb tb fd) []).2.2
    rw [recover_default]
    simp

/-- Witness for C1: the concrete GET `/a` request with no query and no
headers at all (in particular no header `a`) answers 400 and the
handler does not run. -/
theorem c1_nested_guard_rejects_witness :
    (handle c1App (mkGetA [] [] .vUndefined "" [])).1.status = 400 ∧
    Ev.handlerRun ∉ (handle c1App (mkGetA [] [] .vUndefined "" [])).2.2 :=
  c1_nested_guard_rejects [] [] .vUndefined "" [] rfl

end Elysia
